import Mathlib

/-!
Verification of the trade-simulator cost-estimation core.

Shallow embedding of the Python sources:
  src/models/slippage_model.py   (SlippageModel)
  src/models/maker_taker_model.py (FeeModel, MakerTakerModel)
  src/models/market_impact.py    (AlmgrenChrissModel)
  src/websocket/okx_client.py    (OkxOrderbookClient)

Conventions:
* Python floats are modelled as exact rationals (ℚ) where the code uses only
  field operations, and as reals (ℝ) where `math.sqrt` appears.
* A Python expression that can raise `ZeroDivisionError` (or `math.sqrt` of a
  negative) is modelled in `Option`: `none` means the call raises, `some r`
  means it returns `r`.  Code paths that cannot raise are total.
-/

/-- One price level of the orderbook: a row of the pandas `DataFrame` with
columns `price` and `size`. -/
structure Level where
  price : ℚ
  size : ℚ
deriving DecidableEq, Repr

/-- One side of the book (`asks_df` / `bids_df`): list of levels in row order. -/
abbrev BookSide := List Level

/-- The dictionary `{'asks': ..., 'bids': ...}` passed to every estimator. -/
structure Orderbook where
  asks : BookSide
  bids : BookSide
deriving DecidableEq, Repr

/-- The `side` string argument; the code tests `side.lower() == "buy"` and
treats every other string as a sell. -/
inductive Side where
  | buy
  | sell
deriving DecidableEq, Repr

/-- `book_side.iloc[-1]`: the last row of a non-empty side, written as a
structurally recursive function on a head/tail split. -/
def lastLevel : Level → List Level → Level
  | a, [] => a
  | _, b :: tl => lastLevel b tl

/-! ## SlippageModel (src/models/slippage_model.py)

`SlippageModel._extract_features` is computed and discarded by
`predict_slippage` (the regressors are never trained or consulted), and all of
its divisions are guarded, so it cannot affect the returned dictionary; it is
therefore not part of the embedding. -/

/-- The `for _, level in book_side.iterrows()` loop of
`SlippageModel._calculate_execution_price`: walks the book accumulating
`notional_total` and decrementing `remaining_qty`; returns the pair
`(notional_total, remaining_qty)` at loop exit. -/
def walkBook : List Level → ℚ → ℚ × ℚ
  | [], rem => (0, rem)
  | l :: ls, rem =>
    if rem ≤ l.size then (rem * l.price, 0)
    else
      let w := walkBook ls (rem - l.size)
      (l.size * l.price + w.1, w.2)

/-- `SlippageModel._calculate_execution_price(book_side, quantity, side)`.
Returns `some (avg_execution_price, slippage_pct)`, or `none` when the Python
code raises `ZeroDivisionError` (reference price 0 in the slippage-percentage
division).  The division by `quantity` cannot raise: `executed_qty > 0`
forces `quantity > remaining_qty ≥ 0`. -/
def calculate_execution_price (side : Side) (book_side : BookSide) (quantity : ℚ) :
    Option (ℚ × ℚ) :=
  match book_side with
  | [] => some (0, 0)
  | first :: rest =>
    let reference_price := first.price
    let w := walkBook (first :: rest) quantity
    let remaining_qty := w.2
    let notional_total :=
      if remaining_qty > 0 then w.1 + remaining_qty * (lastLevel first rest).price
      else w.1
    let executed_qty := quantity - remaining_qty
    if executed_qty > 0 then
      if reference_price = 0 then none
      else
        let avg_execution_price := notional_total / quantity
        let slippage_pct :=
          match side with
          | .buy => (avg_execution_price - reference_price) / reference_price * 100
          | .sell => (reference_price - avg_execution_price) / reference_price * 100
        some (avg_execution_price, slippage_pct)
    else some (reference_price, 0)

/-- The dictionary returned by `SlippageModel.predict_slippage`. -/
structure SlippageResult where
  estimated_slippage_pct : ℚ
  estimated_slippage_price : ℚ
  max_acceptable_slippage_pct : ℚ
deriving DecidableEq, Repr

/-- `orderbook['asks'] if side.lower() == "buy" else orderbook['bids']`. -/
def relevantSide (orderbook : Orderbook) : Side → BookSide
  | .buy => orderbook.asks
  | .sell => orderbook.bids

/-- `SlippageModel.predict_slippage(orderbook, quantity, side,
slippage_tolerance)`.  On an empty relevant side it returns the fallback
dictionary (after logging a warning); otherwise it walks the book.  The local
`capped_slippage = min(slippage_pct, slippage_tolerance)` of the source is
computed but never placed in the returned dictionary; it is kept here as an
unused binding to mirror the source. -/
def predict_slippage (orderbook : Orderbook) (quantity : ℚ) (side : Side)
    (slippage_tolerance : ℚ) : Option SlippageResult :=
  let book_side := relevantSide orderbook side
  if book_side = [] then
    some ⟨slippage_tolerance, 0, slippage_tolerance⟩
  else
    (calculate_execution_price side book_side quantity).map fun r =>
      let execution_price := r.1
      let slippage_pct := r.2
      let _capped_slippage := min slippage_pct slippage_tolerance
      ⟨slippage_pct, execution_price, slippage_tolerance⟩

/-- Total visible size of a side: `book_side['size'].sum()` (statement-side
abbreviation used to phrase the overfill claims). -/
def sideSize (l : BookSide) : ℚ := (l.map Level.size).sum

/-- Notional of consuming a side completely: `Σ level_size * level_price`
(statement-side abbreviation used to phrase the overfill claims). -/
def sideNotional (l : BookSide) : ℚ := (l.map fun lv => lv.size * lv.price).sum

/-! ## MakerTakerModel and FeeModel (src/models/maker_taker_model.py) -/

/-- The `order_type` string: the code lowercases it and compares against
"market", "limit", "stop-limit", "take-profit"; `other` stands for any
remaining string. -/
inductive OrderType where
  | market
  | limit
  | stopLimit
  | takeProfit
  | other
deriving DecidableEq, Repr

/-- `MakerTakerModel.predict_maker_ratio(orderbook, quantity, order_type)`.
Every division in the source is guarded (`if best_bid > 0`, `if ask_vol > 0`,
`if spread_pct > 0`), so the function is total. -/
def predict_maker_ratio (orderbook : Orderbook) (quantity : ℚ)
    (order_type : OrderType) : ℚ :=
  match order_type with
  | .limit => 0.8
  | .stopLimit => 0.5
  | .takeProfit => 0.5
  | .other => 0
  | .market =>
    match orderbook.asks, orderbook.bids with
    | [], _ => 0
    | _ :: _, [] => 0
    | a :: _, b :: _ =>
      let best_ask := a.price
      let best_bid := b.price
      let spread := best_ask - best_bid
      let spread_pct := if best_bid > 0 then spread / best_bid else 0
      let ask_vol := a.size
      let vol_ratio := if ask_vol > 0 then min (quantity / ask_vol) 1 else 1
      let spread_factor :=
        min (0.0001 / (if spread_pct > 0 then spread_pct else 0.0001)) 0.2
      let maker_ratio := max 0 (0.05 + spread_factor - vol_ratio * 0.1)
      min maker_ratio 0.2

/-- A tier identifier of `FeeModel.FEE_TIERS` (the dictionary keys
"Tier 1 (0.1%)", "Tier 2 (0.08%)", "Tier 3 (0.05%)", "Custom"). -/
inductive TierName where
  | tier1
  | tier2
  | tier3
  | custom
deriving DecidableEq, Repr

/-- A `{"maker": ..., "taker": ...}` entry of the fee table. -/
structure FeeTier where
  maker : ℚ
  taker : ℚ
deriving DecidableEq, Repr

/-- `FeeModel.FEE_TIERS`. -/
def FEE_TIERS : List (TierName × FeeTier) :=
  [(TierName.tier1, ⟨0.0008, 0.001⟩),
   (TierName.tier2, ⟨0.0006, 0.0008⟩),
   (TierName.tier3, ⟨0.0004, 0.0005⟩),
   (TierName.custom, ⟨0.0002, 0.0003⟩)]

/-- The dictionary returned by `FeeModel.calculate_fees`. -/
structure FeeResult where
  maker_fee_rate : ℚ
  taker_fee_rate : ℚ
  maker_fee_amount : ℚ
  taker_fee_amount : ℚ
  total_fee : ℚ
  fee_percentage : ℚ
deriving DecidableEq, Repr

/-- `FeeModel.calculate_fees(trade_size, maker_ratio)` with the model's current
tier rates `t`.  The fee-percentage division is guarded by
`if trade_size > 0`, so the function is total. -/
def calculate_fees (t : FeeTier) (trade_size maker_ratio : ℚ) : FeeResult :=
  let taker_size := trade_size * (1 - maker_ratio)
  let maker_size := trade_size * maker_ratio
  let taker_fee_amount := taker_size * t.taker
  let maker_fee_amount := maker_size * t.maker
  let total_fee := taker_fee_amount + maker_fee_amount
  ⟨t.maker, t.taker, maker_fee_amount, taker_fee_amount, total_fee,
    if trade_size > 0 then total_fee / trade_size * 100 else 0⟩

/-! ## AlmgrenChrissModel (src/models/market_impact.py) -/

/-- The dictionary returned by `AlmgrenChrissModel.estimate_market_impact`. -/
structure ImpactResult where
  temporary_impact : ℝ
  permanent_impact : ℝ
  total_impact : ℝ
  impact_bps : ℝ

/-- `AlmgrenChrissModel._calculate_market_depth(orderbook)`: total notional of
resting liquidity within 1% of the mid price on both sides combined.  All
arithmetic is rational; the function is total (no division). -/
def calculate_market_depth (orderbook : Orderbook) : ℚ :=
  match orderbook.asks, orderbook.bids with
  | [], _ => 1000
  | _ :: _, [] => 1000
  | a :: _, b :: _ =>
    let mid_price := (a.price + b.price) / 2
    let upper_bound := mid_price * 1.01
    let lower_bound := mid_price * 0.99
    let asks_in_range := orderbook.asks.filter fun lv => lv.price ≤ upper_bound
    let bids_in_range := orderbook.bids.filter fun lv => lower_bound ≤ lv.price
    let ask_notional := (asks_in_range.map fun lv => lv.price * lv.size).sum
    let bid_notional := (bids_in_range.map fun lv => lv.price * lv.size).sum
    ask_notional + bid_notional

/-- `volatility_scale = max(0.5, min(2.0, timeframe_volatility / 0.01))` with
`timeframe_volatility = market_volatility * math.sqrt(execution_timeframe / (24*3600))`. -/
noncomputable def volatilityScale (market_volatility execution_timeframe : ℝ) : ℝ :=
  max 0.5 (min 2 (market_volatility * Real.sqrt (execution_timeframe / 86400) / 0.01))

/-- `depth_scale = max(0.5, min(3.0, 1.0 / (market_depth / notional_value)))`. -/
noncomputable def depthScale (market_depth notional_value : ℝ) : ℝ :=
  max 0.5 (min 3 (1 / (market_depth / notional_value)))

/-- The body of `AlmgrenChrissModel.estimate_market_impact` after the
empty-book check, with the market depth passed explicitly (in the source it is
`self._calculate_market_depth(orderbook)`).  `none` marks the places where the
Python code raises: `market_depth / notional_value` and `1.0 / (...)` raise
`ZeroDivisionError` on zero divisors, `1.0 / execution_timeframe` likewise,
and `math.sqrt` of a negative raises `ValueError`. -/
noncomputable def estimateImpactCore (permanent_impact_factor temporary_impact_factor : ℝ)
    (volatility_scaling : Bool) (best_ask best_bid market_depth : ℝ)
    (market_volatility execution_timeframe quantity : ℝ) : Option ImpactResult :=
  let mid_price := (best_ask + best_bid) / 2
  let notional_value := quantity * mid_price
  if volatility_scaling ∧ execution_timeframe / 86400 < 0 then none
  else
    let adjusted_permanent_factor :=
      if volatility_scaling then
        permanent_impact_factor * volatilityScale market_volatility execution_timeframe
      else permanent_impact_factor
    let adjusted_temporary_factor :=
      if volatility_scaling then
        temporary_impact_factor * volatilityScale market_volatility execution_timeframe
      else temporary_impact_factor
    if notional_value = 0 then none
    else if market_depth / notional_value = 0 then none
    else
      let ds := depthScale market_depth notional_value
      let permanent_impact := adjusted_permanent_factor * ds * notional_value
      if execution_timeframe = 0 then none
      else if 1 / execution_timeframe < 0 then none
      else
        let temporary_impact :=
          adjusted_temporary_factor * ds * notional_value * Real.sqrt (1 / execution_timeframe)
        let total_impact := permanent_impact + temporary_impact
        if mid_price = 0 then none
        else some ⟨temporary_impact, permanent_impact, total_impact,
          total_impact / mid_price * 10000⟩

/-- `AlmgrenChrissModel.estimate_market_impact(orderbook, quantity, side,
market_volatility, execution_timeframe)` for a model constructed with the
given impact factors and `volatility_scaling` flag.  The `side` argument of
the source is accepted and never used by the body, so it is omitted here.
An empty side returns the all-zero dictionary after logging a warning. -/
noncomputable def estimate_market_impact (permanent_impact_factor temporary_impact_factor : ℝ)
    (volatility_scaling : Bool) (orderbook : Orderbook)
    (quantity market_volatility execution_timeframe : ℝ) : Option ImpactResult :=
  match orderbook.asks, orderbook.bids with
  | [], _ => some ⟨0, 0, 0, 0⟩
  | _ :: _, [] => some ⟨0, 0, 0, 0⟩
  | a :: _, b :: _ =>
    estimateImpactCore permanent_impact_factor temporary_impact_factor volatility_scaling
      (a.price : ℝ) (b.price : ℝ) ((calculate_market_depth orderbook : ℚ) : ℝ)
      market_volatility execution_timeframe quantity

/-! ## OkxOrderbookClient (src/websocket/okx_client.py) -/

/-- How one connect-then-receive session of `OkxOrderbookClient` ends:
`closedStillRunning` is a `ConnectionClosed` while `self.running` is still
true (the handler reconnects and re-enters `_receive_messages`);
`closedStopped` is a `ConnectionClosed` after `stop()` cleared the flag;
`otherError` is any other exception (logged, loop exits); `stopped` is a
normal exit of the `while self.running` loop. -/
inductive SessionEnd where
  | closedStillRunning
  | closedStopped
  | otherError
  | stopped
deriving DecidableEq, Repr

/-- Number of simultaneously live `_receive_messages` invocations needed to
process a trace of session outcomes, read off the control structure of the
source: the `except ConnectionClosed` handler executes
`await self.connect()` followed by `await self._receive_messages()`, so the
handling of the remaining trace runs *inside* the current invocation, adding
one to the depth per reconnect; every other outcome ends the invocation at
depth one. -/
def receiveCallDepth : List SessionEnd → ℕ
  | [] => 1
  | SessionEnd.closedStillRunning :: rest => receiveCallDepth rest + 1
  | _ :: _ => 1

/-- An inbound WebSocket message as seen by
`OkxOrderbookClient._handle_message`: either not valid JSON (`malformed`,
`json.loads` raises `JSONDecodeError`), or a parsed JSON object whose
optional `asks` / `bids` fields carry raw `[price, size]` rows (already
convertible to numbers; rows that fail `astype(float)` raise inside
`_process_orderbook_data` and are absorbed by the catch-all handler, leaving
the state unchanged like the cases below). -/
inductive InboundMessage where
  | malformed
  | parsed (asks : Option (List (ℚ × ℚ))) (bids : Option (List (ℚ × ℚ)))

/-- The orderbook-related state of `OkxOrderbookClient`: the held `asks_df`,
`bids_df` and the processed-message counter.  The wall-clock latency fields
are real-time measurements and are not part of the embedding. -/
structure ClientState where
  asks_df : BookSide
  bids_df : BookSide
  message_count : ℕ

/-- Insertion of a level into a price-ordered list, used below to model
`DataFrame.sort_values`. -/
def insertByPrice (le : ℚ → ℚ → Bool) (x : Level) : List Level → List Level
  | [] => [x]
  | y :: ys => if le x.price y.price then x :: y :: ys else y :: insertByPrice le x ys

/-- Sorting of a side by price, used below to model `DataFrame.sort_values`. -/
def sortByPrice (le : ℚ → ℚ → Bool) : List Level → List Level
  | [] => []
  | x :: xs => insertByPrice le x (sortByPrice le xs)

/-- `OkxOrderbookClient._process_orderbook_data(asks, bids)`: converts the raw
rows to numeric levels and sorts asks ascending, bids descending by price. -/
def process_orderbook_data (asks bids : List (ℚ × ℚ)) : BookSide × BookSide :=
  let asks_df := asks.map fun r => Level.mk r.1 r.2
  let bids_df := bids.map fun r => Level.mk r.1 r.2
  (sortByPrice (fun a b => a ≤ b) asks_df, sortByPrice (fun a b => b ≤ a) bids_df)

/-- `OkxOrderbookClient._handle_message(message)` as a state transition.
A `JSONDecodeError` and a message missing `asks` or `bids` are logged and
discarded; only a message carrying both fields replaces the held frames and
bumps `message_count`.  Every exception is caught inside the method, so the
transition is total. -/
def handle_message (st : ClientState) (msg : InboundMessage) : ClientState :=
  match msg with
  | .malformed => st
  | .parsed (some asks) (some bids) =>
    let p := process_orderbook_data asks bids
    { st with asks_df := p.1, bids_df := p.2, message_count := st.message_count + 1 }
  | .parsed _ _ => st

example : predict_maker_ratio ⟨[⟨100, 1⟩], [⟨99, 1⟩]⟩ 1 OrderType.limit = 0.8 := by
  norm_num [predict_maker_ratio]
example : (calculate_fees ⟨0.0008, 0.001⟩ 100 0).total_fee = 0.1 := by
  norm_num [calculate_fees]
example : walkBook [⟨10, 1⟩, ⟨12, 2⟩] 5 = (34, 2) := by
  norm_num [walkBook]
example : calculate_execution_price Side.buy [⟨10, 1⟩, ⟨12, 2⟩] 5 =
    some (58 / 5, 16) := by
  norm_num [calculate_execution_price, walkBook, lastLevel]
example : calculate_market_depth ⟨[⟨100, 1⟩], [⟨1, 1⟩]⟩ = 0 := by
  norm_num [calculate_market_depth]

/-! ## Helper lemmas -/

/-- A non-empty book side with a positive best price always yields a result:
every branch of `_calculate_execution_price` then returns, and the only
raising division (by the reference price) has a non-zero divisor. -/
theorem calculate_execution_price_total_of_pos_price (side : Side) (l : Level)
    (ls : List Level) (qty : ℚ) (hp : 0 < l.price) :
    ∃ p s, calculate_execution_price side (l :: ls) qty = some (p, s) := by
  simp only [calculate_execution_price]
  split_ifs with h1 h2
  all_goals first
    | exact absurd h2 (ne_of_gt hp)
    | exact ⟨_, _, rfl⟩

/-- The walk consumes the whole side when the requested quantity exceeds the
total visible size (all sizes non-negative). -/
theorem walkBook_overfill : ∀ (l : List Level) (rem : ℚ),
    (∀ lv ∈ l, 0 ≤ lv.size) → sideSize l < rem →
    walkBook l rem = (sideNotional l, rem - sideSize l) := by
  intro l
  induction l with
  | nil => intro rem _ _; simp [walkBook, sideSize, sideNotional]
  | cons lv tl ih =>
    intro rem hsz hlt
    have htl : ∀ x ∈ tl, 0 ≤ x.size := fun x hx => hsz x (List.mem_cons_of_mem _ hx)
    have htlsum : 0 ≤ sideSize tl :=
      List.sum_nonneg (by intro x hx; simp only [List.mem_map] at hx
                          obtain ⟨y, hy, rfl⟩ := hx; exact htl y hy)
    have hS : sideSize (lv :: tl) = lv.size + sideSize tl := by
      simp [sideSize]
    have hN : sideNotional (lv :: tl) = lv.size * lv.price + sideNotional tl := by
      simp [sideNotional]
    rw [hS] at hlt
    have hgt : lv.size < rem := by linarith
    have hrec := ih (rem - lv.size) htl (by linarith)
    simp only [walkBook, if_neg (not_le.mpr hgt), hrec, hS, hN, Prod.mk.injEq]
    exact ⟨trivial, by ring⟩

/-- The last level of a side is one of its levels. -/
theorem lastLevel_mem : ∀ (a : Level) (l : List Level), lastLevel a l ∈ a :: l := by
  intro a l
  induction l generalizing a with
  | nil => simp [lastLevel]
  | cons b tl ih => exact List.mem_cons_of_mem _ (ih b)

/-- In a side whose prices are pairwise related by a reflexive relation, the
first price is related to every price and every price to the last one. -/
theorem pairwise_price_bounds {r : ℚ → ℚ → Prop} (hr : ∀ x, r x x) :
    ∀ (first : Level) (rest : List Level),
    List.Pairwise (fun a b : Level => r a.price b.price) (first :: rest) →
    ∀ lv ∈ first :: rest, r first.price lv.price ∧ r lv.price (lastLevel first rest).price := by
  intro first rest
  induction rest generalizing first with
  | nil =>
    intro _ lv hm
    rcases List.mem_singleton.mp hm with rfl
    exact ⟨hr _, hr _⟩
  | cons b tl ih =>
    intro hp lv hm
    rcases List.pairwise_cons.mp hp with ⟨hhead, htail⟩
    rcases List.mem_cons.mp hm with rfl | hm2
    · exact ⟨hr _, hhead (lastLevel b tl) (lastLevel_mem b tl)⟩
    · obtain ⟨h1, h2⟩ := ih b htail lv hm2
      exact ⟨hhead lv hm2, h2⟩

/-! ## Claims -/

/-- C2, counterexample: for the empty relevant side the code returns the
slippage tolerance (here `1/2`) as `estimated_slippage_pct`, not zero. -/
theorem predict_slippage_empty_side_not_zero :
    predict_slippage ⟨[], []⟩ 1 Side.buy (1/2) = some ⟨1/2, 0, 1/2⟩ ∧ ((1 : ℚ)/2 ≠ 0) := by
  constructor
  · norm_num [predict_slippage, relevantSide]
  · norm_num

/-- C2, amended: for every orderbook whose relevant side is empty,
`predict_slippage` returns `estimated_slippage_pct` equal to the caller's
`slippage_tolerance` (and `estimated_slippage_price` zero), for every quantity
and tolerance. -/
theorem predict_slippage_empty_side_returns_tolerance (orderbook : Orderbook)
    (qty tol : ℚ) (side : Side) (h : relevantSide orderbook side = []) :
    predict_slippage orderbook qty side tol = some ⟨tol, 0, tol⟩ := by
  simp [predict_slippage, h]

/-- C2, witness for the amended theorem at a concrete empty-bids book. -/
theorem predict_slippage_empty_side_returns_tolerance_witness :
    predict_slippage ⟨[⟨5, 1⟩], []⟩ 3 Side.sell 2 = some ⟨2, 0, 2⟩ :=
  predict_slippage_empty_side_returns_tolerance ⟨[⟨5, 1⟩], []⟩ 3 2 Side.sell rfl

/-- C4: the reconnect handling of `_receive_messages` is recursive
self-invocation, so the number of simultaneously live invocations after `n`
successive unexpected connection closes while running is `n + 1` — linear in
`n`, not bounded by a constant. -/
theorem receiveCallDepth_grows_linearly (n : ℕ) :
    receiveCallDepth (List.replicate n SessionEnd.closedStillRunning) = n + 1 := by
  induction n with
  | zero => rfl
  | succ n ih => simp [List.replicate_succ, receiveCallDepth, ih]

/-- C5: a message that is not valid JSON, or lacks the `asks` field or the
`bids` field, leaves the held orderbook state exactly unchanged (the source
logs and discards it; every exception is caught inside `_handle_message`). -/
theorem handle_message_invalid_leaves_state_unchanged (st : ClientState) :
    handle_message st InboundMessage.malformed = st ∧
    (∀ bids, handle_message st (InboundMessage.parsed none bids) = st) ∧
    (∀ asks, handle_message st (InboundMessage.parsed asks none) = st) := by
  refine ⟨rfl, ?_, ?_⟩
  · intro bids; cases bids <;> rfl
  · intro asks; cases asks <;> rfl

/-- C6: `predict_maker_ratio` returns exactly `0.8` for Limit orders
regardless of book state and quantity, and for Market orders the ratio lies
in `[0, 0.2]` for every orderbook (including empty or zero-size tops) and
every quantity. -/
theorem predict_maker_ratio_limit_and_market_bounds (orderbook : Orderbook) (q : ℚ) :
    predict_maker_ratio orderbook q OrderType.limit = 0.8 ∧
    0 ≤ predict_maker_ratio orderbook q OrderType.market ∧
    predict_maker_ratio orderbook q OrderType.market ≤ 0.2 := by
  refine ⟨rfl, ?_, ?_⟩ <;>
    · simp only [predict_maker_ratio]
      rcases orderbook with ⟨asks, bids⟩
      cases asks with
      | nil => norm_num
      | cons a atl =>
        cases bids with
        | nil => norm_num
        | cons b btl =>
          simp only
          first
          | exact le_min (le_max_left 0 _) (by norm_num)
          | exact min_le_right _ _

/-- C7: for every notional and every configured fee tier, a pure maker trade
pays `notional * maker_rate`, a pure taker trade pays `notional * taker_rate`,
and `fee_percentage` is `total_fee / notional * 100`, defined as `0` when the
notional is `0`. -/
theorem calculate_fees_extreme_ratios (name : TierName) (t : FeeTier)
    (h : (name, t) ∈ FEE_TIERS) (trade_size r : ℚ) :
    (calculate_fees t trade_size 1).total_fee = trade_size * t.maker ∧
    (calculate_fees t trade_size 0).total_fee = trade_size * t.taker ∧
    (calculate_fees t trade_size r).fee_percentage =
      (if trade_size > 0 then (calculate_fees t trade_size r).total_fee / trade_size * 100
       else 0) := by
  refine ⟨?_, ?_, rfl⟩ <;> (simp only [calculate_fees]; ring)

/-- C7, witness at Tier 1 with notional 250 and maker ratio 1/3. -/
theorem calculate_fees_extreme_ratios_witness :
    (calculate_fees ⟨0.0008, 0.001⟩ 250 1).total_fee = 250 * (0.0008 : ℚ) ∧
    (calculate_fees ⟨0.0008, 0.001⟩ 250 0).total_fee = 250 * (0.001 : ℚ) ∧
    (calculate_fees ⟨0.0008, 0.001⟩ 250 (1/3)).fee_percentage =
      (if (250 : ℚ) > 0 then (calculate_fees ⟨0.0008, 0.001⟩ 250 (1/3)).total_fee / 250 * 100
       else 0) :=
  calculate_fees_extreme_ratios TierName.tier1 ⟨0.0008, 0.001⟩
    (by unfold FEE_TIERS; exact List.mem_cons_self _ _) 250 (1/3)

/-- C10: every configured tier has maker rate strictly below taker rate, and
for a positive notional the total fee is strictly decreasing in the maker
ratio over `[0, 1]`. -/
theorem fees_strictly_decreasing_in_maker_ratio (p : TierName × FeeTier)
    (hp : p ∈ FEE_TIERS) (trade_size r1 r2 : ℚ) (hts : 0 < trade_size)
    (h0 : 0 ≤ r1) (h12 : r1 < r2) (h2 : r2 ≤ 1) :
    p.2.maker < p.2.taker ∧
    (calculate_fees p.2 trade_size r2).total_fee <
      (calculate_fees p.2 trade_size r1).total_fee := by
  have hmt : p.2.maker < p.2.taker := by
    fin_cases hp <;> norm_num
  refine ⟨hmt, ?_⟩
  simp only [calculate_fees]
  nlinarith [mul_pos (mul_pos hts (sub_pos.mpr h12)) (sub_pos.mpr hmt)]

/-- C10, witness at the Custom tier, notional 100, maker ratio 0 versus 1. -/
theorem fees_strictly_decreasing_in_maker_ratio_witness :
    (TierName.custom, (⟨0.0002, 0.0003⟩ : FeeTier)).2.maker <
      (TierName.custom, (⟨0.0002, 0.0003⟩ : FeeTier)).2.taker ∧
    (calculate_fees (TierName.custom, (⟨0.0002, 0.0003⟩ : FeeTier)).2 100 1).total_fee <
      (calculate_fees (TierName.custom, (⟨0.0002, 0.0003⟩ : FeeTier)).2 100 0).total_fee :=
  fees_strictly_decreasing_in_maker_ratio (TierName.custom, ⟨0.0002, 0.0003⟩)
    (by unfold FEE_TIERS; simp) 100 0 1 (by norm_num) le_rfl (by norm_num) le_rfl

/-- Evaluation of `_calculate_execution_price` in the overfill regime: the
book is consumed completely and the remainder `qty - sideSize` is priced at
the last level. -/
theorem calculate_execution_price_overfill_eval (side : Side) (first : Level)
    (rest : List Level) (qty : ℚ)
    (hsz : ∀ lv ∈ first :: rest, 0 ≤ lv.size)
    (hpos : 0 < sideSize (first :: rest))
    (hover : sideSize (first :: rest) < qty)
    (hp : first.price ≠ 0) :
    ∃ slip, calculate_execution_price side (first :: rest) qty =
      some ((sideNotional (first :: rest) +
        (qty - sideSize (first :: rest)) * (lastLevel first rest).price) / qty, slip) := by
  have hw := walkBook_overfill (first :: rest) qty hsz hover
  have h1 : qty - sideSize (first :: rest) > 0 := sub_pos.mpr hover
  have h2 : qty - (qty - sideSize (first :: rest)) > 0 := by
    have he : qty - (qty - sideSize (first :: rest)) = sideSize (first :: rest) := by ring
    rw [he]; exact hpos
  simp only [calculate_execution_price, hw]
  rw [if_pos h1, if_pos h2, if_neg hp]
  exact ⟨_, rfl⟩

/-- Each price times size is bounded by the extreme prices times the size,
summed over a side. -/
theorem sideNotional_bounds (lo hi : ℚ) : ∀ (l : List Level),
    (∀ lv ∈ l, 0 ≤ lv.size) → (∀ lv ∈ l, lo ≤ lv.price ∧ lv.price ≤ hi) →
    lo * sideSize l ≤ sideNotional l ∧ sideNotional l ≤ hi * sideSize l := by
  intro l
  induction l with
  | nil => intro _ _; simp [sideSize, sideNotional]
  | cons lv tl ih =>
    intro hsz hbd
    have htl := ih (fun x hx => hsz x (List.mem_cons_of_mem _ hx))
      (fun x hx => hbd x (List.mem_cons_of_mem _ hx))
    have hlv := hbd lv (List.mem_cons_self _ _)
    have hlvs := hsz lv (List.mem_cons_self _ _)
    have hS : sideSize (lv :: tl) = lv.size + sideSize tl := by simp [sideSize]
    have hN : sideNotional (lv :: tl) = lv.size * lv.price + sideNotional tl := by
      simp [sideNotional]
    rw [hS, hN]
    constructor
    · nlinarith [htl.1, hlv.1, hlvs]
    · nlinarith [htl.2, hlv.2, hlvs]

/-- The depth scale is bounded below by its clamp floor. -/
theorem depthScale_ge_half (market_depth notional : ℝ) :
    0.5 ≤ depthScale market_depth notional :=
  le_max_left _ _

/-- For a fixed positive market depth, the depth scale is non-decreasing in
the notional: the clamped quotient rewrites to `notional / market_depth`. -/
theorem depthScale_mono_notional (d n1 n2 : ℝ) (hd : 0 < d) (h12 : n1 ≤ n2) :
    depthScale d n1 ≤ depthScale d n2 := by
  unfold depthScale
  rw [one_div_div, one_div_div]
  gcongr

/-- For a fixed non-negative notional, the depth scale is non-increasing in
the (positive) market depth. -/
theorem depthScale_anti_depth (d1 d2 n : ℝ) (hd1 : 0 < d1) (h12 : d1 ≤ d2)
    (hn : 0 ≤ n) : depthScale d2 n ≤ depthScale d1 n := by
  unfold depthScale
  rw [one_div_div, one_div_div]
  gcongr

/-- Evaluation of the impact core when no divisor vanishes: the volatility
scale, depth scale and square-root factors combine multiplicatively with the
notional. -/
theorem estimateImpactCore_eq (pf tf : ℝ) (vs : Bool) (ba bb d vol T q : ℝ)
    (hT : 0 < T) (hmid : (ba + bb) / 2 ≠ 0) (hq : q ≠ 0) (hd : d ≠ 0) :
    estimateImpactCore pf tf vs ba bb d vol T q =
      some ⟨(if vs then tf * volatilityScale vol T else tf) *
              depthScale d (q * ((ba + bb) / 2)) * (q * ((ba + bb) / 2)) *
              Real.sqrt (1 / T),
            (if vs then pf * volatilityScale vol T else pf) *
              depthScale d (q * ((ba + bb) / 2)) * (q * ((ba + bb) / 2)),
            (if vs then pf * volatilityScale vol T else pf) *
              depthScale d (q * ((ba + bb) / 2)) * (q * ((ba + bb) / 2)) +
              (if vs then tf * volatilityScale vol T else tf) *
                depthScale d (q * ((ba + bb) / 2)) * (q * ((ba + bb) / 2)) *
                Real.sqrt (1 / T),
            ((if vs then pf * volatilityScale vol T else pf) *
                depthScale d (q * ((ba + bb) / 2)) * (q * ((ba + bb) / 2)) +
                (if vs then tf * volatilityScale vol T else tf) *
                  depthScale d (q * ((ba + bb) / 2)) * (q * ((ba + bb) / 2)) *
                  Real.sqrt (1 / T)) / ((ba + bb) / 2) * 10000⟩ := by
  have hn : q * ((ba + bb) / 2) ≠ 0 := mul_ne_zero hq hmid
  have h1 : ¬(vs = true ∧ T / 86400 < 0) := by
    rintro ⟨-, hlt⟩
    have h86 : (0 : ℝ) ≤ T / 86400 := by positivity
    linarith
  simp only [estimateImpactCore]
  rw [if_neg h1, if_neg hn, if_neg (div_ne_zero hd hn), if_neg (ne_of_gt hT),
    if_neg (not_lt.mpr (by positivity : (0 : ℝ) ≤ 1 / T)), if_neg hmid]

/-- C8: with best prices, market depth, volatility, execution timeframe and
impact factors held fixed, `total_impact` is non-decreasing in quantity; with
quantity and all else fixed, it is non-increasing in the (positive) market
depth. -/
theorem estimate_market_impact_monotonicity (pf tf : ℝ) (vs : Bool)
    (ba bb vol T d d2 q q2 : ℝ) (hpf : 0 ≤ pf) (htf : 0 ≤ tf)
    (hmid : 0 < ba + bb) (hT : 0 < T) (hd : 0 < d) (hdd : d ≤ d2)
    (hq : 0 < q) (hqq : q ≤ q2) :
    ∃ r rq rd,
      estimateImpactCore pf tf vs ba bb d vol T q = some r ∧
      estimateImpactCore pf tf vs ba bb d vol T q2 = some rq ∧
      estimateImpactCore pf tf vs ba bb d2 vol T q = some rd ∧
      r.total_impact ≤ rq.total_impact ∧ rd.total_impact ≤ r.total_impact := by
  have hmid2 : 0 < (ba + bb) / 2 := by positivity
  have hq2 : 0 < q2 := hq.trans_le hqq
  have hd2 : 0 < d2 := hd.trans_le hdd
  have hn : 0 < q * ((ba + bb) / 2) := by positivity
  have hn2 : 0 < q2 * ((ba + bb) / 2) := by positivity
  have hnn : q * ((ba + bb) / 2) ≤ q2 * ((ba + bb) / 2) :=
    mul_le_mul_of_nonneg_right hqq hmid2.le
  have hvsc : 0 ≤ volatilityScale vol T :=
    le_trans (by norm_num) (le_max_left (0.5 : ℝ) _)
  have hA : 0 ≤ (if vs then pf * volatilityScale vol T else pf) := by
    split_ifs
    · exact mul_nonneg hpf hvsc
    · exact hpf
  have hB : 0 ≤ (if vs then tf * volatilityScale vol T else tf) := by
    split_ifs
    · exact mul_nonneg htf hvsc
    · exact htf
  have hs : 0 ≤ Real.sqrt (1 / T) := Real.sqrt_nonneg _
  have hds0 : 0 ≤ depthScale d (q * ((ba + bb) / 2)) :=
    le_trans (by norm_num) (depthScale_ge_half _ _)
  have hds20 : 0 ≤ depthScale d (q2 * ((ba + bb) / 2)) :=
    le_trans (by norm_num) (depthScale_ge_half _ _)
  have hC : 0 ≤ (if vs then pf * volatilityScale vol T else pf) +
      (if vs then tf * volatilityScale vol T else tf) * Real.sqrt (1 / T) :=
    add_nonneg hA (mul_nonneg hB hs)
  have key1 : depthScale d (q * ((ba + bb) / 2)) * (q * ((ba + bb) / 2)) ≤
      depthScale d (q2 * ((ba + bb) / 2)) * (q2 * ((ba + bb) / 2)) :=
    mul_le_mul (depthScale_mono_notional d _ _ hd hnn) hnn hn.le hds20
  have key2 : depthScale d2 (q * ((ba + bb) / 2)) * (q * ((ba + bb) / 2)) ≤
      depthScale d (q * ((ba + bb) / 2)) * (q * ((ba + bb) / 2)) :=
    mul_le_mul_of_nonneg_right (depthScale_anti_depth d d2 _ hd hdd hn.le) hn.le
  refine ⟨_, _, _,
    estimateImpactCore_eq pf tf vs ba bb d vol T q hT (ne_of_gt hmid2) (ne_of_gt hq)
      (ne_of_gt hd),
    estimateImpactCore_eq pf tf vs ba bb d vol T q2 hT (ne_of_gt hmid2) (ne_of_gt hq2)
      (ne_of_gt hd),
    estimateImpactCore_eq pf tf vs ba bb d2 vol T q hT (ne_of_gt hmid2) (ne_of_gt hq)
      (ne_of_gt hd2), ?_, ?_⟩
  · dsimp only
    calc (if vs then pf * volatilityScale vol T else pf) *
          depthScale d (q * ((ba + bb) / 2)) * (q * ((ba + bb) / 2)) +
          (if vs then tf * volatilityScale vol T else tf) *
            depthScale d (q * ((ba + bb) / 2)) * (q * ((ba + bb) / 2)) *
            Real.sqrt (1 / T)
        = ((if vs then pf * volatilityScale vol T else pf) +
            (if vs then tf * volatilityScale vol T else tf) * Real.sqrt (1 / T)) *
            (depthScale d (q * ((ba + bb) / 2)) * (q * ((ba + bb) / 2))) := by ring
      _ ≤ ((if vs then pf * volatilityScale vol T else pf) +
            (if vs then tf * volatilityScale vol T else tf) * Real.sqrt (1 / T)) *
            (depthScale d (q2 * ((ba + bb) / 2)) * (q2 * ((ba + bb) / 2))) :=
          mul_le_mul_of_nonneg_left key1 hC
      _ = (if vs then pf * volatilityScale vol T else pf) *
            depthScale d (q2 * ((ba + bb) / 2)) * (q2 * ((ba + bb) / 2)) +
            (if vs then tf * volatilityScale vol T else tf) *
              depthScale d (q2 * ((ba + bb) / 2)) * (q2 * ((ba + bb) / 2)) *
              Real.sqrt (1 / T) := by ring
  · dsimp only
    calc (if vs then pf * volatilityScale vol T else pf) *
          depthScale d2 (q * ((ba + bb) / 2)) * (q * ((ba + bb) / 2)) +
          (if vs then tf * volatilityScale vol T else tf) *
            depthScale d2 (q * ((ba + bb) / 2)) * (q * ((ba + bb) / 2)) *
            Real.sqrt (1 / T)
        = ((if vs then pf * volatilityScale vol T else pf) +
            (if vs then tf * volatilityScale vol T else tf) * Real.sqrt (1 / T)) *
            (depthScale d2 (q * ((ba + bb) / 2)) * (q * ((ba + bb) / 2))) := by ring
      _ ≤ ((if vs then pf * volatilityScale vol T else pf) +
            (if vs then tf * volatilityScale vol T else tf) * Real.sqrt (1 / T)) *
            (depthScale d (q * ((ba + bb) / 2)) * (q * ((ba + bb) / 2))) :=
          mul_le_mul_of_nonneg_left key2 hC
      _ = (if vs then pf * volatilityScale vol T else pf) *
            depthScale d (q * ((ba + bb) / 2)) * (q * ((ba + bb) / 2)) +
            (if vs then tf * volatilityScale vol T else tf) *
              depthScale d (q * ((ba + bb) / 2)) * (q * ((ba + bb) / 2)) *
              Real.sqrt (1 / T) := by ring

/-- C8, witness: the model defaults with best prices 100/99, depths 1000 and
2000, quantities 1 and 2, daily volatility 0.05, one-second timeframe. -/
theorem estimate_market_impact_monotonicity_witness :
    ∃ r rq rd,
      estimateImpactCore 2.5e-6 1.5e-5 true 100 99 1000 0.05 1 1 = some r ∧
      estimateImpactCore 2.5e-6 1.5e-5 true 100 99 1000 0.05 1 2 = some rq ∧
      estimateImpactCore 2.5e-6 1.5e-5 true 100 99 2000 0.05 1 1 = some rd ∧
      r.total_impact ≤ rq.total_impact ∧ rd.total_impact ≤ r.total_impact :=
  estimate_market_impact_monotonicity 2.5e-6 1.5e-5 true 100 99 0.05 1 1000 2000 1 2
    (by norm_num) (by norm_num) (by norm_num) (by norm_num) (by norm_num) (by norm_num)
    (by norm_num) (by norm_num)
